import Mathlib

set_option maxHeartbeats 1000000

/-!
Verification development for the EBC_Measurements data-logging core.

The definitions below are a shallow embedding of the Python sources:

* `Base/DataLogger.py` — `DataLoggerBase.run_data_logging`, the periodic
  logging loop (time is modelled exactly with rationals, wall-clock reads
  are replaced by an explicit per-iteration work duration `w k`);
* `Base/DataOutput.py` — `DataOutputBase.check_and_log_data` and
  `DataOutputCsv` (the csv file is modelled as the list of its rows);
* `ebcmeasurements/Mqtt/MqttDataSourceOutput.py` — the buffered MQTT
  data source (`synchronize_data_buffer` / `read_data`);
* the per-sink name resolver of `ebcmeasurements/Base/DataLogger.py`,
  which is not part of this source snapshot and is therefore modelled
  from the specification text.
-/

/-- A single datum handled by the logger: a missing value (Python `None`),
a string payload, or a timestamp produced by the scheduler. -/
inductive Datum
  | missing
  | str (s : String)
  | time (t : ℚ)
deriving DecidableEq

/-- Behaviour of one `read_data()` call of a data source at a given loop
iteration: it returns a list of values, raises an exception with a message,
or a keyboard interrupt arrives during the read. -/
inductive ReadBehavior
  | vals (l : List Datum)
  | raisesRead (msg : String)
  | kbInterrupt
deriving DecidableEq

/-- A data source: `read k` is the behaviour of its `read_data()` at the
`k`-th loop iteration. -/
structure SourceModel where
  read : ℕ → ReadBehavior

/-- Result of the comprehension reading every source in declaration order. -/
inductive ReadAllResult
  | ok (l : List Datum)
  | raised (msg : String)
  | kb
deriving DecidableEq

/-- `[v for source in self.data_sources for v in source.read_data()]`:
sources are read in declaration order and the first exception aborts the
whole comprehension. -/
def readAll : List SourceModel → ℕ → ReadAllResult
  | [], _ => ReadAllResult.ok []
  | s :: rest, k =>
    match s.read k with
    | ReadBehavior.vals l =>
      match readAll rest k with
      | ReadAllResult.ok l2 => ReadAllResult.ok (l ++ l2)
      | ReadAllResult.raised m => ReadAllResult.raised m
      | ReadAllResult.kb => ReadAllResult.kb
    | ReadBehavior.raisesRead m => ReadAllResult.raised m
    | ReadBehavior.kbInterrupt => ReadAllResult.kb

/-- Configuration of a `DataLoggerBase` together with the keyword arguments
of `run_data_logging` that shape the tick body. `dataHeaders` is the
flattened list `self.data_headers`. -/
structure LoggerConfig where
  sources : List SourceModel
  dataHeaders : List String
  addTimestamp : Bool
  checkDataLength : Bool

/-- Mutable state of the logging loop: current wall-clock time, the
`next_log_time` deadline, the number of completed loop iterations, the
`log_count` counter, the rows dispatched to the outputs, and the number of
negative-sleep warnings emitted. -/
structure RunState where
  now : ℚ
  nextLog : ℚ
  iter : ℕ
  logCount : ℕ
  logged : List (List Datum)
  warnings : ℕ
deriving DecidableEq

/-- State at `start_time = T0`: `next_log_time` is initialised to the start
time and both counters to zero. -/
def initState (T0 : ℚ) : RunState :=
  { now := T0, nextLog := T0, iter := 0, logCount := 0, logged := [], warnings := 0 }

/-- The `while` condition `end_time is None or time.time() < end_time`. -/
def continueRun : Option ℚ → ℚ → Bool
  | none, _ => true
  | some e, now => decide (now < e)

/-- How a run can end. `outOfFuel` is a modelling artefact exposing the
intermediate state after a bounded number of iterations. -/
inductive RunOutcome
  | completed (s : RunState)
  | manualStop (s : RunState)
  | raised (msg : String) (s : RunState)
  | outOfFuel (s : RunState)
deriving DecidableEq

/-- The state carried by any outcome. -/
def RunOutcome.state : RunOutcome → RunState
  | RunOutcome.completed s => s
  | RunOutcome.manualStop s => s
  | RunOutcome.raised _ s => s
  | RunOutcome.outOfFuel s => s

/-- One execution of the loop body of `run_data_logging` (lines 216-250 of
`Base/DataLogger.py`): advance `next_log_time` by `interval`, take the
timestamp, read all sources (an exception there aborts the body), check the
data length, log the row, and finally sleep until the deadline or proceed
immediately with a warning when the remaining sleep time is not positive.
`w s.iter` is the wall-clock duration of this iteration's work. A
`Sum.inl` result continues the loop, a `Sum.inr` result leaves it. -/
def tickStep (cfg : LoggerConfig) (w : ℕ → ℚ) (I : ℚ) (s : RunState) : RunState ⊕ RunOutcome :=
  let next' := s.nextLog + I
  match readAll cfg.sources s.iter with
  | ReadAllResult.kb =>
      Sum.inr (RunOutcome.manualStop { s with nextLog := next', iter := s.iter + 1 })
  | ReadAllResult.raised msg =>
      Sum.inr (RunOutcome.raised msg { s with nextLog := next', iter := s.iter + 1 })
  | ReadAllResult.ok data =>
      let valid := if cfg.checkDataLength then decide (data.length = cfg.dataHeaders.length) else true
      let row := if cfg.addTimestamp then Datum.time s.now :: data else data
      let s1 := if valid then
          { s with logCount := s.logCount + 1, logged := s.logged ++ [row] }
        else s
      let afterWork := s.now + w s.iter
      if 0 < next' - afterWork then
        Sum.inl { s1 with now := next', nextLog := next', iter := s.iter + 1 }
      else
        Sum.inl { s1 with
                  now := afterWork
                  nextLog := next'
                  iter := s.iter + 1
                  warnings := s.warnings + 1 }

/-- The logging loop itself, bounded by an explicit fuel parameter. Exiting
through the `while` condition corresponds to the normal `Data logging
completed` path. -/
def runLoop (cfg : LoggerConfig) (w : ℕ → ℚ) (I : ℚ) (endT : Option ℚ) :
    ℕ → RunState → RunOutcome
  | 0, s => RunOutcome.outOfFuel s
  | f + 1, s =>
    if continueRun endT s.now then
      match tickStep cfg w I s with
      | Sum.inl s' => runLoop cfg w I endT f s'
      | Sum.inr o => o
    else RunOutcome.completed s

/-- Message of the `ValueError` raised for a non-positive interval. -/
def intervalErrorMsg : String := "Logging interval should be greater than 0"

/-- Message of the `ValueError` raised for a non-positive finite duration. -/
def durationErrorMsg : String := "Logging duration should be None or a value greater than 0"

/-- `DataLoggerBase.run_data_logging(interval, duration, ...)`: the input
checks of lines 196-200 run first and raise `ValueError` to the caller;
only then are the time values initialised and the loop entered. -/
def run_data_logging (cfg : LoggerConfig) (w : ℕ → ℚ) (I : ℚ) (D : Option ℚ)
    (T0 : ℚ) (fuel : ℕ) : Except String RunOutcome :=
  if I ≤ 0 then Except.error intervalErrorMsg
  else
    match D with
    | some d =>
        if d ≤ 0 then Except.error durationErrorMsg
        else Except.ok (runLoop cfg w I (some (T0 + d)) fuel (initState T0))
    | none => Except.ok (runLoop cfg w I none fuel (initState T0))

/-- Number of ticks dispatched by a run (`log_count`); 0 when the run was
rejected by the input checks. -/
def runTicks : Except String RunOutcome → ℕ
  | Except.ok o => o.state.logCount
  | Except.error _ => 0

/-- Whether the run ended through the normal completion path. -/
def runCompletedB : Except String RunOutcome → Bool
  | Except.ok (RunOutcome.completed _) => true
  | _ => false

/-- Whether the run ended with an exception propagating to the caller of
`run_data_logging`. -/
def runRaisedB : Except String RunOutcome → Bool
  | Except.ok (RunOutcome.raised _ _) => true
  | _ => false

/-- Row logged at a clean iteration `k`: timestamp `T0 + k*I` followed by
the data `d k` read from the sources. -/
def cleanRow (T0 I : ℚ) (d : ℕ → List Datum) (k : ℕ) : List Datum :=
  Datum.time (T0 + k * I) :: d k

/-- Loop state after `k` clean iterations: both the clock and the deadline
sit exactly on the `k`-th grid point `T0 + k*I`. -/
def cleanState (T0 I : ℚ) (d : ℕ → List Datum) (k : ℕ) : RunState :=
  { now := T0 + k * I
    nextLog := T0 + k * I
    iter := k
    logCount := k
    logged := (List.range k).map (cleanRow T0 I d)
    warnings := 0 }

theorem initState_eq_cleanState (T0 I : ℚ) (d : ℕ → List Datum) :
    initState T0 = cleanState T0 I d 0 := by
  simp [initState, cleanState]

/-- One clean iteration: with a successful read of the expected length and
work strictly shorter than the interval, the body moves the state from grid
point `k` to grid point `k+1`. -/
theorem tickStep_clean (cfg : LoggerConfig) (w : ℕ → ℚ) (I T0 : ℚ)
    (d : ℕ → List Datum) (k : ℕ)
    (hts : cfg.addTimestamp = true) (hck : cfg.checkDataLength = true)
    (hread : readAll cfg.sources k = ReadAllResult.ok (d k))
    (hlen : (d k).length = cfg.dataHeaders.length)
    (hw0 : 0 ≤ w k) (hwI : w k < I) :
    tickStep cfg w I (cleanState T0 I d k) = Sum.inl (cleanState T0 I d (k + 1)) := by
  have hnow : (cleanState T0 I d k).now = T0 + k * I := rfl
  have hiter : (cleanState T0 I d k).iter = k := rfl
  unfold tickStep
  rw [hiter, hread]
  simp only [hts, hck, hlen, decide_eq_true_eq, if_true, if_pos rfl]
  have hsleep : (0 : ℚ) < (cleanState T0 I d k).nextLog + I - ((cleanState T0 I d k).now + w k) := by
    simp only [cleanState]
    linarith
  rw [if_pos hsleep]
  apply congrArg Sum.inl
  have harith : T0 + (k : ℚ) * I + I = T0 + ((k : ℚ) + 1) * I := by ring
  simp [cleanState, cleanRow, List.range_succ, harith]

/-- Running `m` clean iterations consumes exactly `m` units of fuel and
moves the state from grid point `k` to grid point `k + m`, provided the
duration has not elapsed at any of these iterations. -/
theorem runLoop_clean_steps (cfg : LoggerConfig) (w : ℕ → ℚ) (I T0 E : ℚ)
    (d : ℕ → List Datum)
    (hts : cfg.addTimestamp = true) (hck : cfg.checkDataLength = true) :
    ∀ (m k f : ℕ),
      (∀ j, j < k + m → readAll cfg.sources j = ReadAllResult.ok (d j)) →
      (∀ j, j < k + m → (d j).length = cfg.dataHeaders.length) →
      (∀ j, j < k + m → 0 ≤ w j ∧ w j < I) →
      (∀ j, j < k + m → T0 + j * I < E) →
      runLoop cfg w I (some E) (m + f) (cleanState T0 I d k) =
        runLoop cfg w I (some E) f (cleanState T0 I d (k + m)) := by
  intro m
  induction m with
  | zero => intro k f _ _ _ _; simp
  | succ n ih =>
    intro k f hread hlen hw hE
    have hcont : continueRun (some E) (cleanState T0 I d k).now = true := by
      simp only [continueRun, cleanState, decide_eq_true_eq]
      exact hE k (by omega)
    have hstep : tickStep cfg w I (cleanState T0 I d k) = Sum.inl (cleanState T0 I d (k + 1)) :=
      tickStep_clean cfg w I T0 d k hts hck (hread k (by omega)) (hlen k (by omega))
        (hw k (by omega)).1 (hw k (by omega)).2
    have hunfold : runLoop cfg w I (some E) (n + 1 + f) (cleanState T0 I d k) =
        runLoop cfg w I (some E) (n + f) (cleanState T0 I d (k + 1)) := by
      have : n + 1 + f = (n + f) + 1 := by omega
      rw [this]
      simp only [runLoop, hcont, hstep, if_true]
    rw [hunfold]
    have := ih (k + 1) f (fun j hj => hread j (by omega)) (fun j hj => hlen j (by omega))
      (fun j hj => hw j (by omega)) (fun j hj => hE j (by omega))
    rw [this]
    have : k + 1 + n = k + (n + 1) := by omega
    rw [this]

/-- When the clock has reached the end time, the loop exits through the
normal completion path. -/
theorem runLoop_completes (cfg : LoggerConfig) (w : ℕ → ℚ) (I E : ℚ) (f : ℕ)
    (s : RunState) (hend : E ≤ s.now) :
    runLoop cfg w I (some E) (f + 1) s = RunOutcome.completed s := by
  have hcont : continueRun (some E) s.now = false := by
    simp only [continueRun, decide_eq_false_iff_not, not_lt]
    exact hend
  simp only [runLoop, hcont, Bool.false_eq_true, if_false]

/-- Unfolding the loop once while the `while` condition holds. -/
theorem runLoop_succ_of_cont (cfg : LoggerConfig) (w : ℕ → ℚ) (I : ℚ)
    (endT : Option ℚ) (f : ℕ) (s : RunState)
    (hc : continueRun endT s.now = true) :
    runLoop cfg w I endT (f + 1) s =
      (match tickStep cfg w I s with
        | Sum.inl s' => runLoop cfg w I endT f s'
        | Sum.inr o => o) := by
  simp only [runLoop, hc, if_true]

/-- Whatever a body execution does, it advances both the deadline by exactly
one `interval` and the iteration index by one (continuing case). -/
theorem tickStep_inl_fields (cfg : LoggerConfig) (w : ℕ → ℚ) (I : ℚ)
    (s s' : RunState) (htk : tickStep cfg w I s = Sum.inl s') :
    s'.nextLog = s.nextLog + I ∧ s'.iter = s.iter + 1 := by
  unfold tickStep at htk
  rcases hr : readAll cfg.sources s.iter with l | msg | _ <;> rw [hr] at htk <;>
    simp only at htk
  · split at htk <;> { cases htk; exact ⟨rfl, rfl⟩ }
  · cases htk
  · cases htk

/-- Whatever a body execution does, it advances both the deadline by exactly
one `interval` and the iteration index by one (exiting case). -/
theorem tickStep_inr_fields (cfg : LoggerConfig) (w : ℕ → ℚ) (I : ℚ)
    (s : RunState) (o : RunOutcome) (htk : tickStep cfg w I s = Sum.inr o) :
    o.state.nextLog = s.nextLog + I ∧ o.state.iter = s.iter + 1 := by
  unfold tickStep at htk
  rcases hr : readAll cfg.sources s.iter with l | msg | _ <;> rw [hr] at htk <;>
    simp only at htk
  · split at htk <;> cases htk
  · cases htk; exact ⟨rfl, rfl⟩
  · cases htk; exact ⟨rfl, rfl⟩

/-- Grid invariant of the whole loop: if the deadline sits on the grid
anchored at `T0`, it still does after any number of iterations, however the
ticks behaved. -/
theorem runLoop_nextLog_grid (cfg : LoggerConfig) (w : ℕ → ℚ) (I T0 : ℚ)
    (endT : Option ℚ) :
    ∀ (f : ℕ) (s : RunState), s.nextLog = T0 + s.iter * I →
      (runLoop cfg w I endT f s).state.nextLog =
        T0 + (runLoop cfg w I endT f s).state.iter * I := by
  intro f
  induction f with
  | zero => intro s h; simpa [runLoop, RunOutcome.state] using h
  | succ n ih =>
    intro s h
    by_cases hc : continueRun endT s.now
    · rw [runLoop_succ_of_cont cfg w I endT n s hc]
      rcases htk : tickStep cfg w I s with s' | o
      · have hf := tickStep_inl_fields cfg w I s s' htk
        refine ih s' ?_
        rw [hf.1, hf.2, h]
        push_cast
        ring
      · have hf := tickStep_inr_fields cfg w I s o htk
        rw [hf.1, hf.2, h]
        push_cast
        ring
    · simp only [runLoop, hc, Bool.false_eq_true, if_false, RunOutcome.state]
      exact h

/-- The iteration counter never decreases across the loop. -/
theorem runLoop_iter_mono (cfg : LoggerConfig) (w : ℕ → ℚ) (I : ℚ)
    (endT : Option ℚ) :
    ∀ (f : ℕ) (s : RunState), s.iter ≤ (runLoop cfg w I endT f s).state.iter := by
  intro f
  induction f with
  | zero => intro s; simp [runLoop, RunOutcome.state]
  | succ n ih =>
    intro s
    by_cases hc : continueRun endT s.now
    · rw [runLoop_succ_of_cont cfg w I endT n s hc]
      rcases htk : tickStep cfg w I s with s' | o
      · simp only
        have hf := tickStep_inl_fields cfg w I s s' htk
        have := ih s'
        omega
      · simp only
        have hf := tickStep_inr_fields cfg w I s o htk
        omega
    · simp [runLoop, hc, RunOutcome.state]

/-- Once the loop has executed at least one iteration, the iteration
counter — and hence the multiplier of the deadline grid — is at least 1. -/
theorem runLoop_iter_pos (cfg : LoggerConfig) (w : ℕ → ℚ) (I T0 : ℚ)
    (endT : Option ℚ) (f : ℕ) (hf : 1 ≤ f)
    (hc : continueRun endT T0 = true) :
    1 ≤ (runLoop cfg w I endT f (initState T0)).state.iter := by
  obtain ⟨f', rfl⟩ : ∃ f', f = f' + 1 := ⟨f - 1, by omega⟩
  have hc0 : continueRun endT (initState T0).now = true := hc
  rw [runLoop_succ_of_cont cfg w I endT f' (initState T0) hc0]
  have hiter0 : (initState T0).iter = 0 := rfl
  rcases htk : tickStep cfg w I (initState T0) with s' | o
  · simp only
    have hfld := tickStep_inl_fields cfg w I (initState T0) s' htk
    have hmono := runLoop_iter_mono cfg w I endT f' s'
    omega
  · simp only
    have hfld := tickStep_inr_fields cfg w I (initState T0) o htk
    omega

/-- A run is accepted by the input checks (no `ValueError` raised). -/
def runAcceptedB : Except String RunOutcome → Bool
  | Except.ok _ => true
  | Except.error _ => false

/-- Demo source returning two string values at every iteration. -/
def demoSource : SourceModel :=
  ⟨fun _ => ReadBehavior.vals [Datum.str (r"v1"), Datum.str (r"v2")]⟩

/-- Demo header list matching `demoSource`. -/
def demoHeaders : List String := [r"h1", r"h2"]

/-- Demo logger configuration with default keyword arguments. -/
def demoCfg : LoggerConfig := ⟨[demoSource], demoHeaders, true, true⟩

/-- The data `demoSource` produces at every iteration. -/
def demoData : ℕ → List Datum := fun _ => [Datum.str (r"v1"), Datum.str (r"v2")]

/-- Work model in which every tick is instantaneous. -/
def zeroWork : ℕ → ℚ := fun _ => 0

/-- A clean bounded run: if every read up to the `n`-th grid point succeeds
with matching length and every tick's work is shorter than the interval,
and if `n` is the first grid point at which the duration has elapsed, then
the run completes normally in state `cleanState T0 I d n`. -/
theorem run_clean_completed (cfg : LoggerConfig) (w : ℕ → ℚ) (I D T0 : ℚ)
    (d : ℕ → List Datum) (n f : ℕ)
    (hts : cfg.addTimestamp = true) (hck : cfg.checkDataLength = true)
    (hI : 0 < I) (hD : 0 < D)
    (hread : ∀ j, j < n → readAll cfg.sources j = ReadAllResult.ok (d j))
    (hlen : ∀ j, j < n → (d j).length = cfg.dataHeaders.length)
    (hw : ∀ j, j < n → 0 ≤ w j ∧ w j < I)
    (hn1 : D ≤ n * I)
    (hn2 : ∀ m : ℕ, m < n → (m : ℚ) * I < D)
    (hf : n < f) :
    run_data_logging cfg w I (some D) T0 f =
      Except.ok (RunOutcome.completed (cleanState T0 I d n)) := by
  have hrun : run_data_logging cfg w I (some D) T0 f =
      Except.ok (runLoop cfg w I (some (T0 + D)) f (initState T0)) := by
    simp [run_data_logging, hI.not_le, hD.not_le]
  obtain ⟨f', rfl⟩ : ∃ f', f = n + (f' + 1) := ⟨f - n - 1, by omega⟩
  have hloop : runLoop cfg w I (some (T0 + D)) (n + (f' + 1)) (initState T0) =
      RunOutcome.completed (cleanState T0 I d n) := by
    rw [initState_eq_cleanState T0 I d]
    rw [runLoop_clean_steps cfg w I T0 (T0 + D) d hts hck n 0 (f' + 1)
      (fun j hj => hread j (by omega)) (fun j hj => hlen j (by omega))
      (fun j hj => hw j (by omega))
      (fun j hj => by have := hn2 j (by omega); linarith)]
    have h0n : 0 + n = n := by omega
    rw [h0n]
    refine runLoop_completes cfg w I (T0 + D) f' (cleanState T0 I d n) ?_
    have hnow : (cleanState T0 I d n).now = T0 + n * I := rfl
    rw [hnow]
    linarith
  rw [hrun, hloop]

/-- C1 (amended): with interval `I > 0` and finite duration `D > 0`, under an
idealized time model where each tick's work takes less than `I`, the loop
dispatches exactly `n` ticks where `n` is the unique number with
`(n-1)·I < D ≤ n·I`, i.e. `n = ⌈D / I⌉` — not `⌊D / I⌋` in general; the two
agree exactly when `I` divides `D` (in particular interval 2 and duration 10
give 5 ticks), and the session ends through the normal completion path. -/
theorem c1_tick_count_amended (cfg : LoggerConfig) (w : ℕ → ℚ) (I D T0 : ℚ)
    (d : ℕ → List Datum) (n f : ℕ)
    (hts : cfg.addTimestamp = true) (hck : cfg.checkDataLength = true)
    (hI : 0 < I) (hD : 0 < D)
    (hread : ∀ j, j < n → readAll cfg.sources j = ReadAllResult.ok (d j))
    (hlen : ∀ j, j < n → (d j).length = cfg.dataHeaders.length)
    (hw : ∀ j, j < n → 0 ≤ w j ∧ w j < I)
    (hn1 : D ≤ n * I)
    (hn2 : ∀ m : ℕ, m < n → (m : ℚ) * I < D)
    (hf : n < f) :
    runTicks (run_data_logging cfg w I (some D) T0 f) = n ∧
      runCompletedB (run_data_logging cfg w I (some D) T0 f) = true := by
  rw [run_clean_completed cfg w I D T0 d n f hts hck hI hD hread hlen hw hn1 hn2 hf]
  exact ⟨rfl, rfl⟩

/-- C1 witness: interval 2, duration 10, instantaneous ticks — exactly 5
ticks are dispatched and the session completes normally. -/
theorem c1_tick_count_witness :
    runTicks (run_data_logging demoCfg zeroWork 2 (some 10) 0 6) = 5 ∧
      runCompletedB (run_data_logging demoCfg zeroWork 2 (some 10) 0 6) = true :=
  c1_tick_count_amended demoCfg zeroWork 2 10 0 demoData 5 6 rfl rfl
    (by norm_num) (by norm_num)
    (fun j hj => rfl) (fun j hj => rfl)
    (fun j hj => ⟨le_rfl, by norm_num [zeroWork]⟩)
    (by norm_num) (fun m hm => by interval_cases m <;> norm_num) (by omega)

/-- C1 counterexample: with interval 2 and duration 5 (both positive, ticks
instantaneous) the code dispatches 3 ticks, whereas the claim's
`floor(D / I)` predicts 2. -/
theorem c1_tick_count_counterexample :
    runTicks (run_data_logging demoCfg zeroWork 2 (some 5) 0 6) = 3 ∧
      (5 : ℕ) / 2 = 2 ∧
      runTicks (run_data_logging demoCfg zeroWork 2 (some 5) 0 6) ≠ (5 : ℕ) / 2 := by
  have h := run_clean_completed demoCfg zeroWork 2 5 0 demoData 3 6 rfl rfl
    (by norm_num) (by norm_num)
    (fun j hj => rfl) (fun j hj => rfl)
    (fun j hj => ⟨le_rfl, by norm_num [zeroWork]⟩)
    (by norm_num) (fun m hm => by interval_cases m <;> norm_num) (by omega)
  rw [h]
  refine ⟨rfl, rfl, ?_⟩
  rw [show (5 : ℕ) / 2 = 2 from rfl]
  decide

/-- A clean run hitting a failing read: after `m` clean ticks, a read that
raises at iteration `m` (while the duration has not yet elapsed) makes the
whole run return the exception to the caller. -/
theorem run_clean_raised (cfg : LoggerConfig) (w : ℕ → ℚ) (I D T0 : ℚ)
    (d : ℕ → List Datum) (m f : ℕ) (msg : String)
    (hts : cfg.addTimestamp = true) (hck : cfg.checkDataLength = true)
    (hI : 0 < I) (hD : 0 < D)
    (hread : ∀ j, j < m → readAll cfg.sources j = ReadAllResult.ok (d j))
    (hlen : ∀ j, j < m → (d j).length = cfg.dataHeaders.length)
    (hw : ∀ j, j < m → 0 ≤ w j ∧ w j < I)
    (hgrid : ∀ j : ℕ, j ≤ m → (j : ℚ) * I < D)
    (hraise : readAll cfg.sources m = ReadAllResult.raised msg)
    (hf : m < f) :
    run_data_logging cfg w I (some D) T0 f =
      Except.ok (RunOutcome.raised msg
        { cleanState T0 I d m with nextLog := T0 + m * I + I, iter := m + 1 }) := by
  have hrun : run_data_logging cfg w I (some D) T0 f =
      Except.ok (runLoop cfg w I (some (T0 + D)) f (initState T0)) := by
    simp [run_data_logging, hI.not_le, hD.not_le]
  obtain ⟨f', rfl⟩ : ∃ f', f = m + (f' + 1) := ⟨f - m - 1, by omega⟩
  have hsteps : runLoop cfg w I (some (T0 + D)) (m + (f' + 1)) (initState T0) =
      runLoop cfg w I (some (T0 + D)) (f' + 1) (cleanState T0 I d m) := by
    rw [initState_eq_cleanState T0 I d]
    rw [runLoop_clean_steps cfg w I T0 (T0 + D) d hts hck m 0 (f' + 1)
      (fun j hj => hread j (by omega)) (fun j hj => hlen j (by omega))
      (fun j hj => hw j (by omega))
      (fun j hj => by have := hgrid j (by omega); linarith)]
    have h0m : 0 + m = m := by omega
    rw [h0m]
  have hcont : continueRun (some (T0 + D)) (cleanState T0 I d m).now = true := by
    simp only [continueRun, cleanState, decide_eq_true_eq]
    have := hgrid m le_rfl
    linarith
  have hiter : (cleanState T0 I d m).iter = m := rfl
  have hstep : tickStep cfg w I (cleanState T0 I d m) =
      Sum.inr (RunOutcome.raised msg
        { cleanState T0 I d m with nextLog := T0 + m * I + I, iter := m + 1 }) := by
    unfold tickStep
    rw [hiter, hraise]
    rfl
  rw [hrun, hsteps, runLoop_succ_of_cont cfg w I (some (T0 + D)) f'
    (cleanState T0 I d m) hcont, hstep]

/-- C2 (amended): the old `run_data_logging` only catches `KeyboardInterrupt`;
an exception raised by a source's `read_data` during a tick is **not** caught
at the logger boundary — it propagates to the caller of `run_data_logging`
and aborts the session after the `m` ticks already dispatched (the claim's
per-tick recovery applies only to data-length mismatches, which are logged
and skipped without aborting). -/
theorem c2_read_error_propagates (cfg : LoggerConfig) (w : ℕ → ℚ) (I D T0 : ℚ)
    (d : ℕ → List Datum) (m f : ℕ) (msg : String)
    (hts : cfg.addTimestamp = true) (hck : cfg.checkDataLength = true)
    (hI : 0 < I) (hD : 0 < D)
    (hread : ∀ j, j < m → readAll cfg.sources j = ReadAllResult.ok (d j))
    (hlen : ∀ j, j < m → (d j).length = cfg.dataHeaders.length)
    (hw : ∀ j, j < m → 0 ≤ w j ∧ w j < I)
    (hgrid : ∀ j : ℕ, j ≤ m → (j : ℚ) * I < D)
    (hraise : readAll cfg.sources m = ReadAllResult.raised msg)
    (hf : m < f) :
    runRaisedB (run_data_logging cfg w I (some D) T0 f) = true ∧
      runTicks (run_data_logging cfg w I (some D) T0 f) = m ∧
      runCompletedB (run_data_logging cfg w I (some D) T0 f) = false := by
  rw [run_clean_raised cfg w I D T0 d m f msg hts hck hI hD hread hlen hw hgrid hraise hf]
  exact ⟨rfl, rfl, rfl⟩

/-- A source whose first read succeeds and whose second read raises. -/
def flakySource : SourceModel :=
  ⟨fun k => if k = 0 then ReadBehavior.vals [Datum.str (r"v1"), Datum.str (r"v2")]
    else ReadBehavior.raisesRead (r"sensor failure")⟩

/-- Logger configuration over the flaky source. -/
def flakyCfg : LoggerConfig := ⟨[flakySource], demoHeaders, true, true⟩

/-- C2 witness: after one clean tick, the failing read of the second tick
propagates out of `run_data_logging` with exactly one tick logged. -/
theorem c2_read_error_witness :
    runRaisedB (run_data_logging flakyCfg zeroWork 2 (some 10) 0 6) = true ∧
      runTicks (run_data_logging flakyCfg zeroWork 2 (some 10) 0 6) = 1 ∧
      runCompletedB (run_data_logging flakyCfg zeroWork 2 (some 10) 0 6) = false :=
  c2_read_error_propagates flakyCfg zeroWork 2 10 0 demoData 1 6 (r"sensor failure")
    rfl rfl (by norm_num) (by norm_num)
    (fun j hj => by
      have hj0 : j = 0 := by omega
      rw [hj0]
      rfl)
    (fun j hj => rfl)
    (fun j hj => ⟨le_rfl, by norm_num [zeroWork]⟩)
    (fun j hj => by interval_cases j <;> norm_num)
    rfl (by omega)

/-- A source whose read raises at every iteration. -/
def failingSource : SourceModel :=
  ⟨fun _ => ReadBehavior.raisesRead (r"sensor failure")⟩

/-- Logger configuration over the always-failing source. -/
def failCfg : LoggerConfig := ⟨[failingSource], demoHeaders, true, true⟩

/-- C2 counterexample: with interval 2 and duration 10, a source whose read
raises on the very first tick makes the exception reach the caller of
`run_data_logging`; the session is aborted with zero ticks dispatched
instead of being continued with missing values, so the error is not caught
at the logger boundary. -/
theorem c2_read_error_counterexample :
    runRaisedB (run_data_logging failCfg zeroWork 2 (some 10) 0 6) = true ∧
      runTicks (run_data_logging failCfg zeroWork 2 (some 10) 0 6) = 0 ∧
      runCompletedB (run_data_logging failCfg zeroWork 2 (some 10) 0 6) = false := by
  have h := run_clean_raised failCfg zeroWork 2 10 0 demoData 0 6 (r"sensor failure")
    rfl rfl (by norm_num) (by norm_num)
    (fun j hj => by omega)
    (fun j hj => by omega)
    (fun j hj => by omega)
    (fun j hj => by interval_cases j <;> norm_num)
    rfl (by omega)
  rw [h]
  exact ⟨rfl, rfl, rfl⟩

/-- C4: throughout every bounded run, the `next_log_time` deadline always
equals `start_time + k·interval` where `k` is the number of loop iterations
performed (so the grid is anchored at the session start and never re-based
on a tick's completion time); once the loop has run at least one iteration,
`k ≥ 1`; and after any tick whose reads succeeded the loop sleeps exactly
until that deadline when it is still in the future, and otherwise proceeds
immediately at the tick's own completion time while counting one warning. -/
theorem c4_deadline_grid (cfg : LoggerConfig) (w : ℕ → ℚ) (I T0 D : ℚ)
    (f : ℕ) (s : RunState) (ds : List Datum)
    (hD : 0 < D) (hf : 1 ≤ f)
    (hread : readAll cfg.sources s.iter = ReadAllResult.ok ds) :
    ((runLoop cfg w I (some (T0 + D)) f (initState T0)).state.nextLog =
        T0 + (runLoop cfg w I (some (T0 + D)) f (initState T0)).state.iter * I) ∧
      1 ≤ (runLoop cfg w I (some (T0 + D)) f (initState T0)).state.iter ∧
      (∃ s2, tickStep cfg w I s = Sum.inl s2 ∧
        s2.nextLog = s.nextLog + I ∧
        s2.now = (if 0 < s.nextLog + I - (s.now + w s.iter) then s.nextLog + I
          else s.now + w s.iter) ∧
        s2.warnings = (if 0 < s.nextLog + I - (s.now + w s.iter) then s.warnings
          else s.warnings + 1)) := by
  refine ⟨?_, ?_, ?_⟩
  · refine runLoop_nextLog_grid cfg w I T0 (some (T0 + D)) f (initState T0) ?_
    simp [initState]
  · refine runLoop_iter_pos cfg w I T0 (some (T0 + D)) f hf ?_
    simp only [continueRun, decide_eq_true_eq]
    linarith
  · simp only [tickStep, hread]
    by_cases hsleep : 0 < s.nextLog + I - (s.now + w s.iter)
    · rw [if_pos hsleep]
      refine ⟨_, rfl, rfl, ?_, ?_⟩
      · rw [if_pos hsleep]
      · rw [if_pos hsleep]
        rw [apply_ite RunState.warnings]
        simp
    · rw [if_neg hsleep]
      refine ⟨_, rfl, rfl, ?_, ?_⟩
      · rw [if_neg hsleep]
      · rw [if_neg hsleep]

/-- C4 witness: a concrete bounded run (interval 2, duration 10, three fuel
units) and a concrete state about to tick. -/
theorem c4_deadline_grid_witness :
    ((runLoop demoCfg zeroWork 2 (some (0 + 10)) 3 (initState 0)).state.nextLog =
        0 + (runLoop demoCfg zeroWork 2 (some (0 + 10)) 3 (initState 0)).state.iter * 2) ∧
      1 ≤ (runLoop demoCfg zeroWork 2 (some (0 + 10)) 3 (initState 0)).state.iter ∧
      (∃ s2, tickStep demoCfg zeroWork 2 (initState 0) = Sum.inl s2 ∧
        s2.nextLog = (initState 0).nextLog + 2 ∧
        s2.now = (if 0 < (initState 0).nextLog + 2 - ((initState 0).now + zeroWork (initState 0).iter)
          then (initState 0).nextLog + 2
          else (initState 0).now + zeroWork (initState 0).iter) ∧
        s2.warnings = (if 0 < (initState 0).nextLog + 2 - ((initState 0).now + zeroWork (initState 0).iter)
          then (initState 0).warnings
          else (initState 0).warnings + 1)) :=
  c4_deadline_grid demoCfg zeroWork 2 0 10 3 (initState 0)
    [Datum.str (r"v1"), Datum.str (r"v2")]
    (by norm_num) (by omega) rfl

/-- C8: `run_data_logging` validates its inputs at run time, before any
scheduling: a non-positive interval raises the interval `ValueError` to the
caller; a non-positive finite duration raises the duration `ValueError`;
`duration = None` (unbounded) is accepted whenever the interval is
positive. Constructing the logger performs no such check — the interval is
not even a construction argument of `LoggerConfig`. -/
theorem c8_run_validation (cfg : LoggerConfig) (w : ℕ → ℚ) (T0 : ℚ) (f : ℕ)
    (I1 I2 d : ℚ) (D : Option ℚ) :
    (I1 ≤ 0 → run_data_logging cfg w I1 D T0 f = Except.error intervalErrorMsg) ∧
      (0 < I2 → d ≤ 0 →
        run_data_logging cfg w I2 (some d) T0 f = Except.error durationErrorMsg) ∧
      (0 < I2 → runAcceptedB (run_data_logging cfg w I2 none T0 f) = true) := by
  refine ⟨fun h1 => ?_, fun h2 h3 => ?_, fun h2 => ?_⟩
  · unfold run_data_logging
    rw [if_pos h1]
  · simp [run_data_logging, h2.not_le, h3]
  · simp [run_data_logging, h2.not_le, runAcceptedB]

/-- C8 witness: interval −1 is rejected, interval 2 with duration 0 is
rejected, and interval 2 with unbounded duration is accepted. -/
theorem c8_run_validation_witness :
    (run_data_logging demoCfg zeroWork (-1) none 0 3 = Except.error intervalErrorMsg) ∧
      (run_data_logging demoCfg zeroWork 2 (some 0) 0 3 = Except.error durationErrorMsg) ∧
      (runAcceptedB (run_data_logging demoCfg zeroWork 2 none 0 3) = true) := by
  have h := c8_run_validation demoCfg zeroWork 0 3 (-1) 2 0 none
  exact ⟨h.1 (by norm_num), h.2.1 (by norm_num) le_rfl, h.2.2 (by norm_num)⟩

/-- State of a generic data output (sink) of `Base/DataOutput.py`: the
immutable headers established at construction, the rows successfully logged
so far, and the error messages emitted by `logger.error`. -/
structure DataOutputState where
  headers : List String
  rows : List (List Datum)
  errorLog : List String
deriving DecidableEq

/-- The error message of `check_and_log_data` for a length mismatch. -/
def mismatchMsg (rowLen headersLen : ℕ) : String :=
  "Mismatched data length = " ++ toString rowLen ++ " and length of headers = "
    ++ toString headersLen ++ ", skipping logging ..."

/-- `DataOutputBase.check_and_log_data` (lines 42-57 of `Base/DataOutput.py`):
log the row and return `True` when its length equals the headers' length,
otherwise log an error, write nothing, and return `False`. -/
def check_and_log_data (st : DataOutputState) (row : List Datum) :
    Bool × DataOutputState :=
  if row.length = st.headers.length then
    (true, { st with rows := st.rows ++ [row] })
  else
    (false, { st with errorLog := st.errorLog ++ [mismatchMsg row.length st.headers.length] })

/-- Modelled from the spec: the per-tick sink dispatch loop of the
Orchestrator (`DataLoggerBase` of `ebcmeasurements/Base/DataLogger.py`,
which is not part of this source snapshot) — for every sink, dispatch its
assembled row via the sink's `check_and_log_data`, each write inside a
failure boundary scoped to that single sink. -/
def dispatch_rows_to_sinks (sinks : List DataOutputState)
    (rows : List (List Datum)) : List (Bool × DataOutputState) :=
  List.zipWith (fun sk row => check_and_log_data sk row) sinks rows

/-- An empty sink used as a `getD` default. -/
def emptySink : DataOutputState := ⟨[], [], []⟩

/-- A `getD` default for dispatch results. -/
def emptyDispatchResult : Bool × DataOutputState := (true, emptySink)

theorem getD_zipWith {α β γ : Type} (f : α → β → γ) :
    ∀ (as : List α) (bs : List β) (i : ℕ), i < as.length → i < bs.length →
      ∀ (da : α) (db : β) (dc : γ),
        (List.zipWith f as bs).getD i dc = f (as.getD i da) (bs.getD i db) := by
  intro as
  induction as with
  | nil => intro bs i hi; simp at hi
  | cons a as ih =>
    intro bs i hi hj da db dc
    cases bs with
    | nil => simp at hj
    | cons b bs =>
      cases i with
      | zero => simp [List.getD]
      | succ n =>
        simp only [List.zipWith_cons_cons, List.getD_cons_succ]
        exact ih bs n (by simpa using hi) (by simpa using hj) da db dc

/-- C6: a data output's write entry point returns a success boolean instead
of throwing: a row whose length differs from the established headers'
length is rejected — the mismatch is logged, nothing is written, and the
result is `False`; a row of matching length is appended to the output and
the result is `True`. -/
theorem c6_write_returns_bool (st : DataOutputState) (row1 row2 : List Datum) :
    (row1.length ≠ st.headers.length →
      check_and_log_data st row1 =
        (false, { st with errorLog :=
          st.errorLog ++ [mismatchMsg row1.length st.headers.length] })) ∧
      (row2.length = st.headers.length →
        check_and_log_data st row2 = (true, { st with rows := st.rows ++ [row2] })) := by
  constructor
  · intro h
    simp [check_and_log_data, h]
  · intro h
    simp [check_and_log_data, h]

/-- A sink with headers of width 3. -/
def sinkWidth3 : DataOutputState := ⟨[r"Time", r"x", r"y"], [], []⟩

/-- A sink with headers of width 2. -/
def sinkWidth2 : DataOutputState := ⟨[r"Time", r"x"], [], []⟩

/-- C6 witness: a width-1 row against width-3 headers is rejected with
`False` and nothing written; a width-3 row is appended with `True`. -/
theorem c6_write_returns_bool_witness :
    check_and_log_data sinkWidth3 [Datum.missing] =
      (false, { sinkWidth3 with errorLog := sinkWidth3.errorLog ++ [mismatchMsg 1 3] }) ∧
      check_and_log_data sinkWidth3 [Datum.time 0, Datum.str (r"v"), Datum.missing] =
        (true, { sinkWidth3 with rows :=
          sinkWidth3.rows ++ [[Datum.time 0, Datum.str (r"v"), Datum.missing]] }) := by
  have h := c6_write_returns_bool sinkWidth3 [Datum.missing]
    [Datum.time 0, Datum.str (r"v"), Datum.missing]
  exact ⟨h.1 (by decide), h.2 rfl⟩

/-- C3: per-sink failure isolation of the dispatch step — when the row
assembled for sink `i` mismatches that sink's fixed header, sink `i`'s
write is skipped (result `False`, rows unchanged, mismatch logged), while
any other sink `j` of the same tick whose row matches its header still
receives and persists its row. -/
theorem c3_per_sink_isolation (sinks : List DataOutputState)
    (rows : List (List Datum)) (i j : ℕ)
    (hlen : rows.length = sinks.length)
    (hi : i < sinks.length) (hj : j < sinks.length) (hij : i ≠ j)
    (hmis : (rows.getD i []).length ≠ (sinks.getD i emptySink).headers.length)
    (hok : (rows.getD j []).length = (sinks.getD j emptySink).headers.length) :
    ((dispatch_rows_to_sinks sinks rows).getD i emptyDispatchResult).1 = false ∧
      ((dispatch_rows_to_sinks sinks rows).getD i emptyDispatchResult).2.rows =
        (sinks.getD i emptySink).rows ∧
      ((dispatch_rows_to_sinks sinks rows).getD i emptyDispatchResult).2.errorLog =
        (sinks.getD i emptySink).errorLog ++
          [mismatchMsg (rows.getD i []).length (sinks.getD i emptySink).headers.length] ∧
      ((dispatch_rows_to_sinks sinks rows).getD j emptyDispatchResult).1 = true ∧
      ((dispatch_rows_to_sinks sinks rows).getD j emptyDispatchResult).2.rows =
        (sinks.getD j emptySink).rows ++ [rows.getD j []] := by
  have hdi := getD_zipWith (fun sk row => check_and_log_data sk row) sinks rows i
    hi (by omega) emptySink [] emptyDispatchResult
  have hdj := getD_zipWith (fun sk row => check_and_log_data sk row) sinks rows j
    hj (by omega) emptySink [] emptyDispatchResult
  unfold dispatch_rows_to_sinks
  rw [hdi, hdj]
  simp only [check_and_log_data]
  rw [if_neg hmis, if_pos hok]
  exact ⟨rfl, rfl, rfl, rfl, rfl⟩

/-- Two sinks of scenario C: the first with a width-3 header, the second
with a width-2 header. -/
def demoSinks : List DataOutputState := [sinkWidth3, sinkWidth2]

/-- The rows assembled for the two demo sinks: both of width 2, so the
first sink's row mismatches its width-3 header. -/
def demoRows : List (List Datum) :=
  [[Datum.time 0, Datum.str (r"1")], [Datum.time 0, Datum.str (r"1")]]

/-- C3 witness (scenario C): sink 0 with header width 3 receives a width-2
row — its write is skipped and logged; sink 1 in the same tick still
persists its row. -/
theorem c3_per_sink_isolation_witness :
    ((dispatch_rows_to_sinks demoSinks demoRows).getD 0 emptyDispatchResult).1 = false ∧
      ((dispatch_rows_to_sinks demoSinks demoRows).getD 0 emptyDispatchResult).2.rows =
        (demoSinks.getD 0 emptySink).rows ∧
      ((dispatch_rows_to_sinks demoSinks demoRows).getD 0 emptyDispatchResult).2.errorLog =
        (demoSinks.getD 0 emptySink).errorLog ++
          [mismatchMsg (demoRows.getD 0 []).length (demoSinks.getD 0 emptySink).headers.length] ∧
      ((dispatch_rows_to_sinks demoSinks demoRows).getD 1 emptyDispatchResult).1 = true ∧
      ((dispatch_rows_to_sinks demoSinks demoRows).getD 1 emptyDispatchResult).2.rows =
        (demoSinks.getD 1 emptySink).rows ++ [demoRows.getD 1 []] :=
  c3_per_sink_isolation demoSinks demoRows 0 1 rfl (by decide) (by decide) (by decide)
    (by decide) rfl

/-- Rendering of a rational timestamp used in the csv serialization. -/
def ratToString (q : ℚ) : String := toString q.num ++ (r"/") ++ toString q.den

/-- How Python's `csv.writer` serializes one cell: `None` becomes an empty
field, strings are written as they are. -/
def serializeDatum : Datum → String
  | Datum.missing => r""
  | Datum.str s => s
  | Datum.time t => ratToString t

/-- Keys of a settings dictionary, in insertion order. -/
def dictKeys (d : List (String × String)) : List String := d.map Prod.fst

/-- `dict[k] = v`: replace the value of an existing key, else append. -/
def dictUpsert (m : List (String × String)) (k v : String) :
    List (String × String) :=
  if m.any (fun p => p.1 = k) then m.map (fun p => if p.1 = k then (k, v) else p)
  else m ++ [(k, v)]

/-- Python's `dict.update`. -/
def dictUpdate (m : List (String × String)) (upds : List (String × String)) :
    List (String × String) :=
  upds.foldl (fun acc p => dictUpsert acc p.1 p.2) m

/-- The first supplied key that is not a key of the default settings — the
key on which the `for key in csv_writer_settings.keys()` check raises. -/
def findInvalidKey (dflt arg : List (String × String)) : Option String :=
  (dictKeys arg).find? (fun k => ! (dictKeys dflt).contains k)

/-- Class attribute `DataOutputCsv._csv_writer_settings_default`. -/
def csv_writer_settings_default : List (String × String) := [(r"delimiter", r";")]

/-- Message of the `ValueError` raised for an unsupported settings key. -/
def invalidKeyMsg (k : String) : String := "Invalid key in csv_writer_settings: " ++ k

/-- State of a `DataOutputCsv` instance: its settings dictionary, its
headers and the serialized csv file contents (one list of fields per
line). -/
structure DataOutputCsvState where
  csvWriterSettings : List (String × String)
  headers : List String
  file : List (List String)
deriving DecidableEq

/-- `DataOutputBase._generate_headers`. -/
def generate_headers (all_data_names : List String) (time_in_header : Bool) :
    List String :=
  if time_in_header then (r"Time") :: all_data_names else all_data_names

/-- `DataOutputCsv.__init__` (lines 85-120 of `Base/DataOutput.py`): headers
are `['Time'] + all_data_names`; the instance settings start as a copy of
the class default; with custom settings every key is checked against the
default's keys and the first unknown key raises `ValueError` before the
settings are applied and before the file is touched; finally the header is
written, truncating whatever `priorFile` contents existed. The first
component of the result is the class attribute after construction. -/
def initDataOutputCsv (classDefault : List (String × String))
    (priorFile : List (List String)) (all_data_names : List String)
    (csv_writer_settings : Option (List (String × String))) :
    Except String (List (String × String) × DataOutputCsvState) :=
  let headers := generate_headers all_data_names true
  match csv_writer_settings with
  | none => Except.ok (classDefault, ⟨classDefault, headers, [headers]⟩)
  | some s =>
    match findInvalidKey classDefault s with
    | some k => Except.error (invalidKeyMsg k)
    | none => Except.ok (classDefault, ⟨dictUpdate classDefault s, headers, [headers]⟩)

/-- `check_and_log_data` specialised to the csv output: a matching row is
serialized and appended as one line; a mismatching row is rejected. -/
def check_and_log_data_csv (st : DataOutputCsvState) (row : List Datum) :
    Bool × DataOutputCsvState :=
  if row.length = st.headers.length then
    (true, { st with file := st.file ++ [row.map serializeDatum] })
  else (false, st)

/-- Logging a sequence of rows, keeping only the file state. -/
def logAllCsv (st : DataOutputCsvState) (rows : List (List Datum)) :
    DataOutputCsvState :=
  rows.foldl (fun s r => (check_and_log_data_csv s r).2) st

theorem logAllCsv_length (rows : List (List Datum)) :
    ∀ st : DataOutputCsvState, (∀ r ∈ rows, r.length = st.headers.length) →
      (logAllCsv st rows).file.length = st.file.length + rows.length := by
  induction rows with
  | nil => intro st _; simp [logAllCsv]
  | cons r rows ih =>
    intro st h
    have hr : r.length = st.headers.length := h r (by simp)
    have hcons : logAllCsv st (r :: rows) =
        logAllCsv ((check_and_log_data_csv st r).2) rows := rfl
    have hstep : (check_and_log_data_csv st r).2 =
        { st with file := st.file ++ [r.map serializeDatum] } := by
      simp [check_and_log_data_csv, hr]
    rw [hcons, hstep]
    have hrec := ih { st with file := st.file ++ [r.map serializeDatum] }
      (fun r2 hr2 => h r2 (by simp [hr2]))
    rw [hrec]
    simp
    omega

/-- C7: constructing a csv output truncates the file (the prior contents do
not appear in the result) and writes exactly one header line, `Time`
followed by the data names in declared order; each successful log appends
exactly one serialized row, so `N` successful logs on top of the
construction leave `N + 1` lines; serialization keeps the row width and
turns a missing value into an empty field in its exact column. -/
theorem c7_csv_file_shape (cd : List (String × String)) (prior : List (List String))
    (names : List String) (st : DataOutputCsvState) (rows : List (List Datum))
    (row : List Datum) (i : ℕ) :
    (initDataOutputCsv cd prior names none =
      Except.ok (cd, ⟨cd, (r"Time") :: names, [(r"Time") :: names]⟩)) ∧
      ((∀ r ∈ rows, r.length = st.headers.length) →
        (logAllCsv st rows).file.length = st.file.length + rows.length) ∧
      (row.length = st.headers.length →
        (check_and_log_data_csv st row).2.file = st.file ++ [row.map serializeDatum]) ∧
      ((row.map serializeDatum).length = row.length) ∧
      (row[i]? = some Datum.missing →
        (row.map serializeDatum)[i]? = some (r"")) := by
  refine ⟨rfl, logAllCsv_length rows st, ?_, by simp, ?_⟩
  · intro h
    simp [check_and_log_data_csv, h]
  · intro h
    rw [List.getElem?_map, h]
    rfl

/-- A csv output state as produced by construction with one data name. -/
def csvDemoState : DataOutputCsvState :=
  ⟨csv_writer_settings_default, [r"Time", r"a"], [[r"Time", r"a"]]⟩

/-- The single demo row: a timestamp and a missing value. -/
def csvDemoRow : List Datum := [Datum.time 0, Datum.missing]

/-- C7 witness: construction yields exactly the header line; one successful
log of a width-2 row yields 2 lines; the missing value of the demo row is
serialized as an empty field in column 1 with the width kept. -/
theorem c7_csv_file_shape_witness :
    (initDataOutputCsv csv_writer_settings_default [[r"old"]] [r"a"] none =
      Except.ok (csv_writer_settings_default,
        ⟨csv_writer_settings_default, (r"Time") :: [r"a"], [(r"Time") :: [r"a"]]⟩)) ∧
      ((logAllCsv csvDemoState [csvDemoRow]).file.length =
        csvDemoState.file.length + 1) ∧
      ((check_and_log_data_csv csvDemoState csvDemoRow).2.file =
        csvDemoState.file ++ [csvDemoRow.map serializeDatum]) ∧
      ((csvDemoRow.map serializeDatum).length = csvDemoRow.length) ∧
      ((csvDemoRow.map serializeDatum)[1]? = some (r"")) := by
  have h := c7_csv_file_shape csv_writer_settings_default [[r"old"]] [r"a"]
    csvDemoState [csvDemoRow] csvDemoRow 1
  exact ⟨h.1, h.2.1 (by decide), h.2.2.1 rfl, h.2.2.2.1, h.2.2.2.2 rfl⟩

/-- C10: constructing a csv output with custom writer settings leaves the
class-level default dictionary untouched (the copied instance dictionary
receives the update), the default still maps `delimiter` to `;`, and any
supplied key unknown to the defaults raises `ValueError` — so no instance
settings exist at all in that case. -/
theorem c10_csv_settings_frame (cd : List (String × String))
    (prior : List (List String)) (names : List String)
    (arg1 arg2 : List (String × String))
    (res : List (String × String) × DataOutputCsvState) (k : String) :
    (initDataOutputCsv cd prior names (some arg1) = Except.ok res →
      res.1 = cd ∧ res.2.csvWriterSettings = dictUpdate cd arg1) ∧
      (List.lookup (r"delimiter") csv_writer_settings_default = some (r";")) ∧
      (findInvalidKey cd arg2 = some k →
        initDataOutputCsv cd prior names (some arg2) = Except.error (invalidKeyMsg k)) ∧
      (k ∈ dictKeys arg2 → ¬ k ∈ dictKeys cd →
        ∃ k2, findInvalidKey cd arg2 = some k2 ∧
          initDataOutputCsv cd prior names (some arg2) =
            Except.error (invalidKeyMsg k2)) := by
  refine ⟨?_, rfl, ?_, ?_⟩
  · intro h
    simp only [initDataOutputCsv] at h
    rcases hf : findInvalidKey cd arg1 with _ | k1
    · rw [hf] at h
      simp only at h
      cases h
      exact ⟨rfl, rfl⟩
    · rw [hf] at h
      simp at h
  · intro h
    simp [initDataOutputCsv, h]
  · intro hk hnk
    rcases hfind : findInvalidKey cd arg2 with _ | k2
    · exfalso
      have hall := List.find?_eq_none.mp hfind k hk
      simp only [Bool.not_eq_true, Bool.not_eq_false] at hall
      refine hnk ?_
      simpa using hall
    · exact ⟨k2, rfl, by simp [initDataOutputCsv, hfind]⟩

/-- Custom settings replacing the delimiter by a comma. -/
def commaSettings : List (String × String) := [(r"delimiter", r",")]

/-- Settings with a key unknown to the defaults. -/
def badSettings : List (String × String) := [(r"foo", r"x")]

/-- C10 witness: constructing with a comma delimiter leaves the class
default mapping `delimiter` to `;` and updates only the instance copy;
constructing with the unknown key `foo` raises the `ValueError` instead. -/
theorem c10_csv_settings_frame_witness :
    ((csv_writer_settings_default, (⟨commaSettings, [r"Time", r"a"],
        [[r"Time", r"a"]]⟩ : DataOutputCsvState)).1 = csv_writer_settings_default ∧
      (csv_writer_settings_default, (⟨commaSettings, [r"Time", r"a"],
        [[r"Time", r"a"]]⟩ : DataOutputCsvState)).2.csvWriterSettings =
        dictUpdate csv_writer_settings_default commaSettings) ∧
      (List.lookup (r"delimiter") csv_writer_settings_default = some (r";")) ∧
      (initDataOutputCsv csv_writer_settings_default [] [r"a"] (some badSettings) =
        Except.error (invalidKeyMsg (r"foo"))) ∧
      (∃ k2, findInvalidKey csv_writer_settings_default badSettings = some k2 ∧
        initDataOutputCsv csv_writer_settings_default [] [r"a"] (some badSettings) =
          Except.error (invalidKeyMsg k2)) := by
  have h := c10_csv_settings_frame csv_writer_settings_default [] [r"a"]
    commaSettings badSettings
    (csv_writer_settings_default, ⟨commaSettings, [r"Time", r"a"], [[r"Time", r"a"]]⟩)
    (r"foo")
  exact ⟨h.1 rfl, h.2.1, h.2.2.1 rfl, h.2.2.2 (by decide) (by decide)⟩

/-- Lookup in the MQTT data buffer (Python `dict` access by topic). -/
def mqttLookup (t : String) : List (String × ℚ) → Option ℚ
  | [] => none
  | p :: m => if p.1 = t then some p.2 else mqttLookup t m

/-- `dict[k] = v` on the buffer: replace the value of an existing topic,
else append the new topic. -/
def mqttUpsert (m : List (String × ℚ)) (k : String) (v : ℚ) :
    List (String × ℚ) :=
  if m.any (fun p => decide (p.1 = k)) then
    m.map (fun p => if p.1 = k then (k, v) else p)
  else m ++ [(k, v)]

/-- Python's `dict.update` on the buffer. -/
def mqttDictUpdate (m upds : List (String × ℚ)) : List (String × ℚ) :=
  upds.foldl (fun acc p => mqttUpsert acc p.1 p.2) m

/-- The MQTT data source of `MqttDataSourceOutput`: its `_data_buffer`. -/
structure MqttDataSource where
  buffer : List (String × ℚ)

/-- `MqttDataSource.synchronize_data_buffer`: `self._data_buffer.update(data)`,
called by the client's `on_message` delivery callback. -/
def MqttDataSource.synchronize_data_buffer (st : MqttDataSource)
    (data : List (String × ℚ)) : MqttDataSource :=
  ⟨mqttDictUpdate st.buffer data⟩

/-- `MqttDataSource.read_data` (lines 26-29): copy the buffer, clear it,
return the copy. -/
def MqttDataSource.read_data (st : MqttDataSource) :
    List (String × ℚ) × MqttDataSource :=
  (st.buffer, ⟨[]⟩)

/-- A sequence of single-topic deliveries, each arriving through
`on_message` / `synchronize_data_buffer`. -/
def deliverAll (st : MqttDataSource) (ds : List (String × ℚ)) : MqttDataSource :=
  ds.foldl (fun s p => s.synchronize_data_buffer [(p.1, p.2)]) st

/-- The value of the last delivery for topic `t` in a delivery sequence. -/
def lastValue (ds : List (String × ℚ)) (t : String) : Option ℚ :=
  ((ds.filter (fun p => decide (p.1 = t))).getLast?).map Prod.snd

theorem mqttLookup_map_replace_ne (k : String) (v : ℚ) (t : String)
    (h : ¬ t = k) :
    ∀ m : List (String × ℚ),
      mqttLookup t (m.map (fun p => if p.1 = k then (k, v) else p)) =
        mqttLookup t m := by
  intro m
  induction m with
  | nil => rfl
  | cons p m ih =>
    by_cases hp : p.1 = k
    · rw [List.map_cons, if_pos hp]
      have h2 : ¬ (k = t) := fun hh => h hh.symm
      have h3 : ¬ (p.1 = t) := by rw [hp]; exact h2
      simp [mqttLookup, h2, h3, ih]
    · rw [List.map_cons, if_neg hp]
      by_cases hpt : p.1 = t
      · simp [mqttLookup, hpt]
      · simp [mqttLookup, hpt, ih]

theorem mqttLookup_append_ne (k : String) (v : ℚ) (t : String)
    (h : ¬ k = t) :
    ∀ m : List (String × ℚ), mqttLookup t (m ++ [(k, v)]) = mqttLookup t m := by
  intro m
  induction m with
  | nil => simp [mqttLookup, h]
  | cons p m ih =>
    by_cases hpt : p.1 = t
    · simp [mqttLookup, hpt]
    · simp [mqttLookup, hpt, ih]

theorem mqttLookup_mqttUpsert_other (m : List (String × ℚ)) (k : String)
    (v : ℚ) (t : String) (h : ¬ t = k) :
    mqttLookup t (mqttUpsert m k v) = mqttLookup t m := by
  rw [mqttUpsert]
  by_cases hany : m.any (fun p => decide (p.1 = k)) = true
  · rw [if_pos hany]
    exact mqttLookup_map_replace_ne k v t h m
  · rw [if_neg hany]
    exact mqttLookup_append_ne k v t (fun hh => h hh.symm) m

theorem mqttLookup_mqttUpsert_self (k : String) (v : ℚ) :
    ∀ m : List (String × ℚ), mqttLookup k (mqttUpsert m k v) = some v := by
  intro m
  induction m with
  | nil => simp [mqttUpsert, mqttLookup]
  | cons p m ih =>
    rw [mqttUpsert]
    by_cases hany : (p :: m).any (fun q => decide (q.1 = k)) = true
    · rw [if_pos hany]
      by_cases hp : p.1 = k
      · rw [List.map_cons, if_pos hp]
        simp [mqttLookup]
      · rw [List.map_cons, if_neg hp]
        have hany2 : m.any (fun q => decide (q.1 = k)) = true := by
          simp only [List.any_cons, Bool.or_eq_true, decide_eq_true_eq] at hany
          rcases hany with h1 | h2
          · exact absurd h1 hp
          · exact h2
        have := ih
        rw [mqttUpsert, if_pos hany2] at this
        simp [mqttLookup, hp, this]
    · rw [if_neg hany]
      have hp : ¬ (p.1 = k) := by
        intro hh
        exact hany (by simp [List.any_cons, hh])
      have hany2 : ¬ (m.any (fun q => decide (q.1 = k)) = true) := by
        intro hh
        exact hany (by simp [List.any_cons, hh])
      have := ih
      rw [mqttUpsert, if_neg hany2] at this
      simp only [List.cons_append]
      simp [mqttLookup, hp, this]

theorem deliverAll_append (st : MqttDataSource) (ds : List (String × ℚ))
    (p : String × ℚ) :
    deliverAll st (ds ++ [p]) =
      (deliverAll st ds).synchronize_data_buffer [(p.1, p.2)] := by
  simp [deliverAll, List.foldl_append]

theorem mqttLookup_deliverAll_empty (ds : List (String × ℚ)) (t : String) :
    mqttLookup t (deliverAll ⟨[]⟩ ds).buffer = lastValue ds t := by
  induction ds using List.reverseRecOn with
  | nil => simp [deliverAll, lastValue, mqttLookup]
  | append_singleton ds p ih =>
    rw [deliverAll_append]
    have hsync : (deliverAll ⟨[]⟩ ds).synchronize_data_buffer [(p.1, p.2)] =
        ⟨mqttUpsert (deliverAll ⟨[]⟩ ds).buffer p.1 p.2⟩ := rfl
    rw [hsync]
    by_cases h : t = p.1
    · rw [h]
      have := mqttLookup_mqttUpsert_self p.1 p.2 (deliverAll ⟨[]⟩ ds).buffer
      rw [this]
      rw [lastValue, List.filter_append]
      have hfp : List.filter (fun q => decide (q.1 = p.1)) [p] = [p] := by
        simp
      rw [hfp, List.getLast?_concat]
      rfl
    · rw [mqttLookup_mqttUpsert_other _ p.1 p.2 t h, ih]
      rw [lastValue, lastValue, List.filter_append]
      have hfp : List.filter (fun q => decide (q.1 = t)) [p] = [] := by
        simp
        exact fun hh => h hh.symm
      rw [hfp, List.append_nil]

/-- C9: `read_data` of the event-driven MQTT source hands over exactly the
buffered updates delivered since the previous read and leaves the buffer
empty — after a read the buffer is empty; a read following a sequence of
deliveries yields, for every topic, exactly the value of the last delivery
to that topic since the previous read (and nothing for topics without a
delivery, so no stale value is ever re-delivered); and a second read with
no intervening deliveries returns the empty mapping. -/
theorem c9_mqtt_read_take_and_clear (st : MqttDataSource)
    (ds : List (String × ℚ)) (t : String) :
    (st.read_data).2.buffer = [] ∧
      mqttLookup t ((deliverAll (st.read_data).2 ds).read_data).1 = lastValue ds t ∧
      (((deliverAll (st.read_data).2 ds).read_data).2.read_data).1 = [] := by
  refine ⟨rfl, ?_, rfl⟩
  exact mqttLookup_deliverAll_empty ds t

/-- Modelled from the spec: candidate names of one source for one sink —
the declared names with any matching rename rule applied, unmatched names
passing through unchanged (the rename step of the Name Resolver of
`ebcmeasurements/Base/DataLogger.py`, which is not part of this source
snapshot). -/
def candidateNamesOf (decl : List String) (rules : List (String × String)) :
    List String :=
  decl.map (fun n => (List.lookup n rules).getD n)

/-- Modelled from the spec: per-sink candidates of every contributing
source, in declaration order. -/
def sinkCandidates (sources : List (String × List String))
    (rulesFor : String → List (String × String)) : List (String × List String) :=
  sources.map (fun p => (p.1, candidateNamesOf p.2 (rulesFor p.1)))

/-- All names of a per-source name assignment, flattened in order. -/
def flatNames (l : List (String × List String)) : List String :=
  (l.map Prod.snd).join

/-- Modelled from the spec: the `"<sourceName><delimiter>"` prefixing used
by the whole-source fallback. -/
def qualifyName (delim sn n : String) : String := sn ++ delim ++ n

/-- Modelled from the spec: resolution for a single sink — if the candidate
names collected across all contributing sources are globally unique they
are final; otherwise the rename step's effect is discarded entirely and
every variable of every contributing source is prefixed with
`"<sourceName><delimiter>"`. -/
def resolveSink (delim : String) (sources : List (String × List String))
    (rulesFor : String → List (String × String)) : List (String × List String) :=
  let cands := sinkCandidates sources rulesFor
  if (flatNames cands).Nodup then cands
  else sources.map (fun p => (p.1, p.2.map (qualifyName delim p.1)))

/-- Modelled from the spec: the full resolver — one independent per-sink
resolution for every sink, using only that sink's rename rules. -/
def resolveAll (delim : String) (sources : List (String × List String))
    (sinks : List String)
    (rules : String → String → List (String × String)) :
    List (String × List (String × List String)) :=
  sinks.map (fun sk => (sk, resolveSink delim sources (fun sn => rules sn sk)))

theorem lookup_resolveAll (delim : String) (sources : List (String × List String))
    (rules : String → String → List (String × String)) (sk : String) :
    ∀ sinks : List String, sk ∈ sinks →
      List.lookup sk (resolveAll delim sources sinks rules) =
        some (resolveSink delim sources (fun sn => rules sn sk)) := by
  intro sinks
  induction sinks with
  | nil => intro h; simp at h
  | cons s sinks ih =>
    intro hmem
    by_cases h : sk = s
    · subst h
      simp [resolveAll, List.lookup]
    · have hmem2 : sk ∈ sinks := by
        rcases List.mem_cons.mp hmem with h1 | h2
        · exact absurd h1 h
        · exact h2
      have hbeq : (sk == s) = false := by
        simp [h]
      simp only [resolveAll, List.map_cons, List.lookup, hbeq]
      exact ih hmem2

/-- C5 (amended): whenever the rename step leaves at least one duplicate
among the candidate names collected across all contributing sources of a
sink, the resolver discards the rename effect and prefixes every variable
of every contributing source with `"<sourceName><delimiter>"`, for that
sink only — each sink's entry of the full resolver is computed from its
own rules alone, so other sinks are unaffected; and the resulting final
names for that sink contain no duplicates provided prefixing is
unambiguous, i.e. two distinct (source, variable) pairs never render to
the same prefixed string (automatic when source names are unique and no
source name contains the delimiter). -/
theorem c5_prefix_fallback_amended (delim : String)
    (sources : List (String × List String))
    (rulesFor : String → List (String × String)) (sinks : List String)
    (rules : String → String → List (String × String)) (sk : String)
    (hdup : ¬ (flatNames (sinkCandidates sources rulesFor)).Nodup)
    (hsrc : (sources.map Prod.fst).Nodup)
    (hdecl : ∀ p ∈ sources, p.2.Nodup)
    (hcross : ∀ p ∈ sources, ∀ q ∈ sources, ∀ n ∈ p.2, ∀ n2 ∈ q.2,
      qualifyName delim p.1 n = qualifyName delim q.1 n2 → p.1 = q.1 ∧ n = n2)
    (hsk : sk ∈ sinks) :
    resolveSink delim sources rulesFor =
        sources.map (fun p => (p.1, p.2.map (qualifyName delim p.1))) ∧
      (flatNames (resolveSink delim sources rulesFor)).Nodup ∧
      List.lookup sk (resolveAll delim sources sinks rules) =
        some (resolveSink delim sources (fun sn => rules sn sk)) := by
  have hres : resolveSink delim sources rulesFor =
      sources.map (fun p => (p.1, p.2.map (qualifyName delim p.1))) := by
    simp only [resolveSink]
    rw [if_neg hdup]
  refine ⟨hres, ?_, lookup_resolveAll delim sources rules sk sinks hsk⟩
  rw [hres]
  have hflat : flatNames
      (sources.map (fun p => (p.1, p.2.map (qualifyName delim p.1)))) =
      (sources.map (fun p => p.2.map (qualifyName delim p.1))).join := by
    simp [flatNames, List.map_map]
    rfl
  rw [hflat]
  rw [List.nodup_join]
  constructor
  · intro l hl
    rcases List.mem_map.mp hl with ⟨p, hp, hpl⟩
    rw [← hpl]
    refine List.Nodup.map_on ?_ (hdecl p hp)
    intro x hx y hy hxy
    exact (hcross p hp p hp x hx y hy hxy).2
  · have hpw : sources.Pairwise (fun p q => p.1 ≠ q.1) :=
      (List.pairwise_map).mp hsrc
    rw [List.pairwise_map]
    refine hpw.imp_of_mem ?_
    intro p q hp hq hne
    intro a hap haq
    rcases List.mem_map.mp hap with ⟨n, hn, hna⟩
    rcases List.mem_map.mp haq with ⟨n2, hn2, hn2a⟩
    have heq : qualifyName delim p.1 n = qualifyName delim q.1 n2 := by
      rw [hna, hn2a]
    exact hne (hcross p hp q hq n hn n2 hn2 heq).1

/-- No rename rules at all. -/
def noRules : String → List (String × String) := fun _ => []

/-- Two legally named sources (unique source names, unique variable names
within each source) whose prefixed names collide because one source name
contains the delimiter. -/
def collideSources : List (String × List String) :=
  [(r"A", [r"y", r"B;x"]), (r"A;B", [r"y", r"x"])]

/-- C5 counterexample: for `collideSources` with delimiter `;` and no
rename rules the fallback triggers (the candidate name `y` is duplicated),
the configuration is legal — source names unique, per-source variable
names unique — and yet the final names produced by the whole-source
prefixing still contain a duplicate (`A;B;x` arises from both sources), so
the claim that the resulting names never contain duplicates is false. -/
theorem c5_prefix_fallback_counterexample :
    (¬ (flatNames (sinkCandidates collideSources noRules)).Nodup) ∧
      (collideSources.map Prod.fst).Nodup ∧
      (∀ p ∈ collideSources, p.2.Nodup) ∧
      ¬ (flatNames (resolveSink (r";") collideSources noRules)).Nodup := by
  refine ⟨by decide, by decide, by decide, by decide⟩

/-- Two sources sharing the variable name `x`, with distinct clean names. -/
def cleanSources : List (String × List String) :=
  [(r"S1", [r"x"]), (r"S2", [r"x"])]

/-- C5 witness: for two sources both declaring `x` and no rename rules, the
resolver prefixes every variable of both sources for the sink, the final
names are duplicate-free, and the sink's entry in the full resolver equals
its own per-sink resolution. -/
theorem c5_prefix_fallback_witness :
    resolveSink (r";") cleanSources noRules =
        cleanSources.map (fun p => (p.1, p.2.map (qualifyName (r";") p.1))) ∧
      (flatNames (resolveSink (r";") cleanSources noRules)).Nodup ∧
      List.lookup (r"OutA") (resolveAll (r";") cleanSources [r"OutA"]
          (fun _ _ => [])) =
        some (resolveSink (r";") cleanSources (fun sn => (fun _ _ => ([] : List (String × String))) sn (r"OutA"))) :=
  c5_prefix_fallback_amended (r";") cleanSources noRules [r"OutA"]
    (fun _ _ => []) (r"OutA")
    (by decide) (by decide) (by decide) (by decide) (by decide)
